import Mathlib

/-!
A shallow embedding of the `jamincan/adventofcode` Rust repository
(src/aoc2015/day1.rs, src/aoc2015/day2.rs), together with theorems that
settle the natural-language claims about it.

Strings are modelled as `List Char`; Rust's `Result<T, E>` is modelled by
the `Result` inductive below; `u64`/`i64` values are modelled by `Nat`/`Int`
with explicit range checks where the Rust code performs them (`u64` parse
overflow, `i64::try_from`).
-/

set_option autoImplicit false
set_option maxRecDepth 8192

/-- Rust's `Result<T, E>`. -/
inductive Result (T : Type) (E : Type) where
  | Ok : T → Result T E
  | Err : E → Result T E
deriving DecidableEq, Repr

/-- Rust's `Result::map`. -/
def Result.map {T U E : Type} (f : T → U) : Result T E → Result U E
  | .Ok t => .Ok (f t)
  | .Err e => .Err e

/-- Rust's `Result::is_ok`. -/
def Result.isOk {T E : Type} : Result T E → Bool
  | .Ok _ => true
  | .Err _ => false

/-- `Sum for Result<i64, E>`: sums the `Ok` values, short-circuiting on the
first `Err` in iteration order. The accumulation is modelled exactly: every
theorem below that evaluates a day2 total carries an explicit `< 2 ^ 63` bound
on the running total, under which the i64 accumulation never wraps, and day1's
per-character deltas of `±1` keep every partial sum within i64 range on any
line of fewer than `2 ^ 63` characters. -/
def sumResults {E : Type} : List (Result Int E) → Result Int E
  | [] => .Ok 0
  | .Err e :: _ => .Err e
  | .Ok v :: rest =>
    match sumResults rest with
    | .Err e => .Err e
    | .Ok s => .Ok (v + s)

/-- Split a list at the first occurrence of `c`: returns the part before and
the part after, or `none` when `c` does not occur. -/
def splitOnce (c : Char) : List Char → Option (List Char × List Char)
  | [] => none
  | a :: rest =>
    if a = c then some ([], rest)
    else
      match splitOnce c rest with
      | none => none
      | some (pre, post) => some (a :: pre, post)

/-- Rust's `str::splitn(n, c)`: at most `n` pieces, the last piece keeps the
rest of the string unsplit (including further occurrences of `c`). -/
def splitn : Nat → Char → List Char → List (List Char)
  | 0, _, _ => []
  | 1, _, s => [s]
  | n + 2, c, s =>
    match splitOnce c s with
    | none => [s]
    | some (pre, post) => pre :: splitn (n + 1) c post

/-- Drop one leading carriage return (used on the reversed accumulator of a
line, so this models stripping one trailing `\r` before a `\n`). -/
def chompCr : List Char → List Char
  | '\r' :: rest => rest
  | l => l

/-- Worker for `rlines`. `acc` holds the current line reversed. A `\n` ends a
line (one `\r` directly before it is stripped); a final line ending is
optional; the last line keeps a bare trailing `\r`. -/
def rlinesGo (acc : List Char) : List Char → List (List Char)
  | [] => [acc.reverse]
  | c :: rest =>
    if c = '\n' then
      (chompCr acc).reverse :: (if rest = [] then [] else rlinesGo [] rest)
    else
      rlinesGo (c :: acc) rest

/-- Rust's `str::lines`. -/
def rlines : List Char → List (List Char)
  | [] => []
  | s => rlinesGo [] s

/-- Rust's `<char>::to_digit(10)` restricted to ASCII decimal digits, as used
by integer parsing. -/
def digitVal (c : Char) : Option Nat :=
  if '0' ≤ c ∧ c ≤ '9' then some (c.toNat - '0'.toNat) else none

/-- The error kinds of `std::num::ParseIntError` reachable when parsing `u64`. -/
inductive ParseIntError where
  | Empty : ParseIntError
  | InvalidDigit : ParseIntError
  | PosOverflow : ParseIntError
deriving DecidableEq, Repr

/-- Digit-accumulation loop of `u64::from_str`: each step multiplies by 10 and
adds the digit with a `u64` overflow check, as Rust's checked arithmetic does. -/
def parseDigits : List Char → Nat → Result Nat ParseIntError
  | [], acc => .Ok acc
  | c :: rest, acc =>
    match digitVal c with
    | none => .Err .InvalidDigit
    | some d =>
      let acc2 := acc * 10 + d
      if acc2 < 2 ^ 64 then parseDigits rest acc2 else .Err .PosOverflow

/-- Rust's `u64::from_str` (`str::parse::<u64>`): empty input is `Empty`, an
optional leading `+` is allowed, a sign with no digits or any non-digit is
`InvalidDigit`, and values past `u64::MAX` are `PosOverflow`. -/
def parse_u64 (s : List Char) : Result Nat ParseIntError :=
  match s with
  | [] => .Err .Empty
  | _ =>
    let body :=
      match s with
      | '+' :: rest => rest
      | other => other
    match body with
    | [] => .Err .InvalidDigit
    | _ => parseDigits body 0

/-- Two's-complement wrap-around of `i64` arithmetic: the value an overflowing
Rust `i64` operation produces in release builds (debug builds panic instead;
either way an overflowing computation never produces the exact mathematical
value). On values already in `i64` range this is the identity. -/
def wrap64 (n : Int) : Int :=
  (n + 2 ^ 63) % 2 ^ 64 - 2 ^ 63

namespace day2

/-- The dimensions of a present (day2). Fields are `i64` values. -/
structure Dimensions where
  length : Int
  width : Int
  height : Int
deriving DecidableEq, Repr

/-- `Dimensions::new`. -/
def Dimensions.new (length width height : Int) : Dimensions :=
  ⟨length, width, height⟩

/-- `ParseDimensionError` (day2). `InvalidType` carries the wrapped
`ParseIntError`; `TooLargeDimension` wraps `TryFromIntError`. -/
inductive ParseDimensionError where
  | MissingDimensions : ParseDimensionError
  | TooManyDimensions : ParseDimensionError
  | InvalidType : ParseIntError → ParseDimensionError
  | TooLargeDimension : ParseDimensionError
deriving DecidableEq, Repr

/-- `i64::try_from` on a `u64` value: fails past `i64::MAX`, and the `?`
conversion turns the failure into `TooLargeDimension`. -/
def i64_try_from (n : Nat) : Result Int ParseDimensionError :=
  if n ≤ 2 ^ 63 - 1 then .Ok (Int.ofNat n) else .Err .TooLargeDimension

/-- One term of `Dimensions::from_str`:
`terms.next().ok_or(MissingDimensions)?.parse::<u64>()?` then `i64::try_from(..)?`. -/
def parseTerm (t : Option (List Char)) : Result Int ParseDimensionError :=
  match t with
  | none => .Err .MissingDimensions
  | some str =>
    match parse_u64 str with
    | .Err e => .Err (.InvalidType e)
    | .Ok n => i64_try_from n

/-- `Dimensions::from_str`: split with `splitn(3, 'x')`, parse three terms,
then fail with `TooManyDimensions` if a fourth term remains. -/
def Dimensions.from_str (s : List Char) : Result Dimensions ParseDimensionError :=
  let terms := splitn 3 'x' s
  match parseTerm (terms.get? 0) with
  | .Err e => .Err e
  | .Ok length =>
    match parseTerm (terms.get? 1) with
    | .Err e => .Err e
    | .Ok width =>
      match parseTerm (terms.get? 2) with
      | .Err e => .Err e
      | .Ok height =>
        if (terms.get? 3).isSome then .Err .TooManyDimensions
        else .Ok (Dimensions.new length width height)

/-- `iter().min()` on a list of `i64` values. -/
def iterMin : List Int → Option Int
  | [] => none
  | a :: rest => some (rest.foldl min a)

/-- `wrapping_paper`: twice the sum of the three face areas plus the smallest
face area. Every `i64` operation (each face-area product, each addition of the
`iter().sum()`, the doubling and the final addition) wraps via `wrap64`. The
`expect` on the three-element array is modelled by `getD 0`, which is
unreachable there. -/
def wrapping_paper (dimensions : Dimensions) : Int :=
  let areas : List Int :=
    [wrap64 (dimensions.length * dimensions.width),
     wrap64 (dimensions.width * dimensions.height),
     wrap64 (dimensions.length * dimensions.height)]
  let m := (iterMin areas).getD 0
  let area := areas.foldl (fun a b => wrap64 (a + b)) 0
  wrap64 (wrap64 (2 * area) + m)

/-- `ribbon`: twice the smallest half-perimeter plus the volume. Every `i64`
operation (each half-perimeter sum, the two volume multiplications, the
doubling and the final addition) wraps via `wrap64`. -/
def ribbon (dimensions : Dimensions) : Int :=
  let half_perims : List Int :=
    [wrap64 (dimensions.length + dimensions.width),
     wrap64 (dimensions.width + dimensions.height),
     wrap64 (dimensions.length + dimensions.height)]
  let m := (iterMin half_perims).getD 0
  let vol := wrap64 (wrap64 (dimensions.length * dimensions.width) * dimensions.height)
  wrap64 (wrap64 (2 * m) + vol)

/-- `day2::part1`: parse every line, map to `wrapping_paper`, sum strictly. -/
def part1 (input : List Char) : Result Int ParseDimensionError :=
  sumResults ((rlines input).map fun line =>
    (Dimensions.from_str line).map wrapping_paper)

/-- `day2::part2`: parse every line, map to `ribbon`, sum strictly. -/
def part2 (input : List Char) : Result Int ParseDimensionError :=
  sumResults ((rlines input).map fun line =>
    (Dimensions.from_str line).map ribbon)

end day2

namespace day1

/-- `ParseDirectionError` (day1). -/
inductive ParseDirectionError where
  | InvalidCharacter : Char → ParseDirectionError
deriving DecidableEq, Repr

/-- The per-character match inside `parse_directions`. -/
def to_direction (ch : Char) : Result Int ParseDirectionError :=
  if ch = '(' then .Ok 1
  else if ch = ')' then .Ok (-1)
  else .Err (.InvalidCharacter ch)

/-- `parse_directions`: the characters of the first line only
(`lines().take(1).flat_map(chars)`), each mapped to `±1` or an error. -/
def parse_directions (input : List Char) : List (Result Int ParseDirectionError) :=
  (((rlines input).take 1).flatten).map to_direction

/-- `day1::part1`: `parse_directions(input).sum()`. -/
def part1 (input : List Char) : Result Int ParseDirectionError :=
  sumResults (parse_directions input)

/-- The two contents a `Box<dyn Error>` returned by `day1::part2` can hold:
a propagated `ParseDirectionError`, or the &str message
"Santa never enters the basement.". -/
inductive Part2Error where
  | Parse : ParseDirectionError → Part2Error
  | NeverEntersBasement : Part2Error
deriving DecidableEq, Repr

/-- The loop of `day1::part2`: track the floor; on an error, return it; when
the floor drops below 0, return the 1-based position. -/
def part2Go : List (Result Int ParseDirectionError) → Int → Nat → Result Nat Part2Error
  | [], _, _ => .Err .NeverEntersBasement
  | .Err e :: _, _, _ => .Err (.Parse e)
  | .Ok dir :: rest, floor, i =>
    let floor2 := floor + dir
    if floor2 < 0 then .Ok (i + 1) else part2Go rest floor2 (i + 1)

/-- `day1::part2`. -/
def part2 (input : List Char) : Result Nat Part2Error :=
  part2Go (parse_directions input) 0 0

end day1

/-- Spec-side delta of one direction character: `+1` for `(`, `-1` for `)`. -/
def delta (c : Char) : Int :=
  if c = '(' then 1 else -1

/-- The first line of the input, as `parse_directions` sees it. -/
def firstLine (input : List Char) : List Char :=
  ((rlines input).take 1).flatten

/-- Spec-side prefix sum: the sum of the deltas of the first `n` characters. -/
def psum (cs : List Char) (n : Nat) : Int :=
  ((cs.take n).map delta).sum

/-- Spec-side recursion mirroring the basement search of `day1::part2`:
the 1-based position (relative to the start of `cs`) at which the running
floor, started at `floor`, first drops below zero. -/
def basementPos : List Char → Int → Option Nat
  | [], _ => none
  | c :: rest, floor =>
    let floor2 := floor + delta c
    if floor2 < 0 then some 1 else (basementPos rest floor2).map (· + 1)

/-- Spec-side wrapping-paper formula of one present:
`2*(l*w + w*h + h*l) + min(l*w, w*h, h*l)`, as exact integers. -/
def paperFormula (d : day2.Dimensions) : Int :=
  2 * (d.length * d.width + d.width * d.height + d.height * d.length) +
    min (d.length * d.width) (min (d.width * d.height) (d.height * d.length))

/-- Spec-side ribbon formula of one present:
`2*min(l+w, w+h, h+l) + l*w*h`, as exact integers. -/
def ribbonFormula (d : day2.Dimensions) : Int :=
  2 * min (d.length + d.width) (min (d.width + d.height) (d.height + d.length)) +
    d.length * d.width * d.height

/-! ## General lemmas about the embedded iterator combinators -/

theorem Result.map_ok {T U E : Type} (f : T → U) (t : T) :
    (Result.Ok t : Result T E).map f = .Ok (f t) := rfl

theorem Result.map_err {T U E : Type} (f : T → U) (e : E) :
    (Result.Err e : Result T E).map f = .Err e := rfl

theorem sumResults_cons_ok {E : Type} (v : Int) (l : List (Result Int E)) :
    sumResults (.Ok v :: l) =
      match sumResults l with
      | .Err e => .Err e
      | .Ok s => .Ok (v + s) := rfl

theorem sumResults_first_err {E : Type} :
    ∀ (l1 : List (Result Int E)) (e : E) (l2 : List (Result Int E)),
      (∀ x ∈ l1, x.isOk = true) →
      sumResults (l1 ++ .Err e :: l2) = .Err e := by
  intro l1
  induction l1 with
  | nil => intro e l2 _; rfl
  | cons x rest ih =>
    intro e l2 h
    cases x with
    | Err e2 =>
      have hx := h (.Err e2) (List.mem_cons_self _ _)
      simp [Result.isOk] at hx
    | Ok v =>
      have hr := ih e l2 (fun y hy => h y (List.mem_cons_of_mem _ hy))
      simp [List.cons_append, sumResults, hr]

theorem sumResults_map_delta {E : Type} (cs : List Char) :
    sumResults (cs.map fun c => (Result.Ok (delta c) : Result Int E)) =
      .Ok ((cs.map delta).sum) := by
  induction cs with
  | nil => rfl
  | cons c rest ih => simp [sumResults, ih, List.sum_cons]

/-! ## Lemmas about day2 -/

theorem wrap64_eq_self (n : Int) (h1 : -(2 ^ 63) ≤ n) (h2 : n < 2 ^ 63) :
    wrap64 n = n := by
  unfold wrap64
  omega

theorem parseTerm_ok_range (t : Option (List Char)) (v : Int)
    (h : day2.parseTerm t = .Ok v) : 0 ≤ v ∧ v ≤ 2 ^ 63 - 1 := by
  unfold day2.parseTerm at h
  split at h
  · simp at h
  · split at h
    · simp at h
    · rename_i n hpu
      unfold day2.i64_try_from at h
      split at h
      · rename_i hle
        injection h with h
        subst h
        refine ⟨Int.ofNat_nonneg _, ?_⟩
        show (n : Int) ≤ 2 ^ 63 - 1
        omega
      · simp at h

theorem from_str_ok_range (s : List Char) (d : day2.Dimensions)
    (h : day2.Dimensions.from_str s = .Ok d) :
    0 ≤ d.length ∧ d.length ≤ 2 ^ 63 - 1 ∧ 0 ≤ d.width ∧ d.width ≤ 2 ^ 63 - 1 ∧
      0 ≤ d.height ∧ d.height ≤ 2 ^ 63 - 1 := by
  simp only [day2.Dimensions.from_str] at h
  split at h
  · simp at h
  · rename_i l heql
    split at h
    · simp at h
    · rename_i w heqw
      split at h
      · simp at h
      · rename_i ht heqh
        split at h
        · simp at h
        · injection h with h
          subst h
          have r1 := parseTerm_ok_range _ _ heql
          have r2 := parseTerm_ok_range _ _ heqw
          have r3 := parseTerm_ok_range _ _ heqh
          exact ⟨r1.1, r1.2, r2.1, r2.2, r3.1, r3.2⟩

theorem mem_of_map_eq_map_ok {T E : Type} (f : List Char → Result T E) :
    ∀ (ls : List (List Char)) (xs : List T), ls.map f = xs.map Result.Ok →
      ∀ x ∈ xs, ∃ l, f l = .Ok x := by
  intro ls
  induction ls with
  | nil =>
    intro xs h x hx
    cases xs with
    | nil => simp at hx
    | cons y ys => simp at h
  | cons l rest ih =>
    intro xs h x hx
    cases xs with
    | nil => simp at hx
    | cons y ys =>
      simp only [List.map_cons, List.cons.injEq] at h
      obtain ⟨h1, h2⟩ := h
      rcases List.mem_cons.mp hx with hxy | hxs
      · subst hxy
        exact ⟨l, h1⟩
      · exact ih ys h2 x hxs

theorem list_map_congr_mem {A B : Type} (f g : A → B) :
    ∀ l : List A, (∀ x ∈ l, f x = g x) → l.map f = l.map g := by
  intro l
  induction l with
  | nil => intro _; rfl
  | cons a t ih =>
    intro h
    simp only [List.map_cons]
    rw [h a (List.mem_cons_self _ _), ih (fun x hx => h x (List.mem_cons_of_mem _ hx))]

theorem wrapping_paper_eq_formula (d : day2.Dimensions)
    (hl : 0 ≤ d.length) (hw : 0 ≤ d.width) (hh : 0 ≤ d.height)
    (hF : paperFormula d < 2 ^ 63) :
    day2.wrapping_paper d = paperFormula d := by
  have ha : 0 ≤ d.length * d.width := mul_nonneg hl hw
  have hb : 0 ≤ d.width * d.height := mul_nonneg hw hh
  have hc : 0 ≤ d.length * d.height := mul_nonneg hl hh
  unfold paperFormula at hF ⊢
  rw [mul_comm d.height d.length] at hF ⊢
  unfold day2.wrapping_paper day2.iterMin
  simp only [List.foldl, Option.getD_some]
  generalize d.length * d.width = a at *
  generalize d.width * d.height = b at *
  generalize d.length * d.height = c at *
  rw [wrap64_eq_self a (by omega) (by omega),
    wrap64_eq_self b (by omega) (by omega),
    wrap64_eq_self c (by omega) (by omega),
    wrap64_eq_self (0 + a) (by omega) (by omega),
    wrap64_eq_self (0 + a + b) (by omega) (by omega),
    wrap64_eq_self (0 + a + b + c) (by omega) (by omega),
    wrap64_eq_self (2 * (0 + a + b + c)) (by omega) (by omega),
    wrap64_eq_self (2 * (0 + a + b + c) + min (min a b) c) (by omega) (by omega)]
  omega

theorem ribbon_eq_formula (d : day2.Dimensions)
    (hl : 0 ≤ d.length) (hw : 0 ≤ d.width) (hh : 0 ≤ d.height)
    (hpw : d.length + d.width < 2 ^ 63) (hph : d.width + d.height < 2 ^ 63)
    (hpl : d.length + d.height < 2 ^ 63) (hlw : d.length * d.width < 2 ^ 63)
    (hF : ribbonFormula d < 2 ^ 63) :
    day2.ribbon d = ribbonFormula d := by
  have hlw0 : 0 ≤ d.length * d.width := mul_nonneg hl hw
  have hv : 0 ≤ d.length * d.width * d.height := mul_nonneg hlw0 hh
  unfold ribbonFormula at hF ⊢
  rw [add_comm d.height d.length] at hF ⊢
  unfold day2.ribbon day2.iterMin
  simp only [List.foldl, Option.getD_some]
  rw [wrap64_eq_self (d.length * d.width)
    (le_trans (by omega : (-(2 ^ 63) : Int) ≤ 0) hlw0) hlw]
  generalize d.length * d.width * d.height = v at *
  rw [wrap64_eq_self (d.length + d.width) (by omega) (by omega),
    wrap64_eq_self (d.width + d.height) (by omega) (by omega),
    wrap64_eq_self (d.length + d.height) (by omega) (by omega),
    wrap64_eq_self v (by omega) (by omega)]
  rw [wrap64_eq_self
      (2 * min (min (d.length + d.width) (d.width + d.height)) (d.length + d.height))
      (by omega) (by omega),
    wrap64_eq_self
      (2 * min (min (d.length + d.width) (d.width + d.height)) (d.length + d.height) + v)
      (by omega) (by omega)]
  omega

theorem day2_sumResults_all_ok (f : day2.Dimensions → Int) :
    ∀ (ls : List (List Char)) (dims : List day2.Dimensions),
      ls.map day2.Dimensions.from_str = dims.map Result.Ok →
      sumResults (ls.map fun l => (day2.Dimensions.from_str l).map f) =
        .Ok ((dims.map f).sum) := by
  intro ls
  induction ls with
  | nil =>
    intro dims h
    cases dims with
    | nil => rfl
    | cons d ds => simp at h
  | cons l rest ih =>
    intro dims h
    cases dims with
    | nil => simp at h
    | cons d ds =>
      simp only [List.map_cons, List.cons.injEq] at h
      obtain ⟨h1, h2⟩ := h
      have hr := ih ds h2
      simp only [List.map_cons]
      rw [h1, Result.map_ok, sumResults_cons_ok, hr]
      simp [List.sum_cons]

/-! ## Claims about day2 answers -/

/-- C1 fails as stated: "4000000000x4000000000x1" is a well-formed record (all
three fields parse and fit in `i64`), but the face area 4000000000*4000000000
exceeds `i64::MAX`, so the i64 arithmetic of `wrapping_paper` wraps (release
builds) or panics (debug builds) and `part1` cannot return the exact value
`2*(l*w + w*h + h*l) + min(l*w, w*h, h*l)` the claim asserts. -/
theorem c1_counterexample :
    day2.Dimensions.from_str "4000000000x4000000000x1".toList =
        .Ok (day2.Dimensions.new 4000000000 4000000000 1) ∧
      day2.part1 "4000000000x4000000000x1".toList ≠
        .Ok (paperFormula (day2.Dimensions.new 4000000000 4000000000 1)) := by
  decide

/-- C1 amended: for every input all of whose lines are well-formed `l`x`w`x`h`
records, provided each line's wrapping-paper value
`2*(l*w + w*h + h*l) + min(l*w, w*h, h*l)` and the total over all lines stay
below `2^63` (so no `i64` computation overflows), `day2::part1` computes that
formula for each line and returns the sum over all lines; in particular
`part1("2x3x4") = Ok(58)` and `part1("1x1x10") = Ok(43)`. -/
theorem c1_day2_part1_wrapping_paper :
    (∀ (input : List Char) (dims : List day2.Dimensions),
        (rlines input).map day2.Dimensions.from_str = dims.map Result.Ok →
        (∀ d ∈ dims, paperFormula d < 2 ^ 63) →
        (dims.map paperFormula).sum < 2 ^ 63 →
        day2.part1 input = .Ok ((dims.map paperFormula).sum)) ∧
      day2.part1 "2x3x4".toList = .Ok 58 ∧ day2.part1 "1x1x10".toList = .Ok 43 := by
  refine ⟨?_, by decide, by decide⟩
  intro input dims h hb htotal
  have hsum := day2_sumResults_all_ok day2.wrapping_paper (rlines input) dims h
  show sumResults ((rlines input).map fun line =>
    (day2.Dimensions.from_str line).map day2.wrapping_paper) = _
  rw [hsum]
  have hmaps : dims.map day2.wrapping_paper = dims.map paperFormula := by
    apply list_map_congr_mem
    intro d hd
    obtain ⟨l, hl⟩ := mem_of_map_eq_map_ok day2.Dimensions.from_str (rlines input) dims h d hd
    obtain ⟨q1, q2, q3, q4, q5, q6⟩ := from_str_ok_range l d hl
    exact wrapping_paper_eq_formula d q1 q3 q5 (hb d hd)
  rw [hmaps]

/-- Witness for C1 (amended) at the concrete input "2x3x4\n1x1x10". -/
theorem c1_witness :
    day2.part1 "2x3x4\n1x1x10".toList =
      .Ok (([day2.Dimensions.new 2 3 4, day2.Dimensions.new 1 1 10].map paperFormula).sum) :=
  c1_day2_part1_wrapping_paper.1 "2x3x4\n1x1x10".toList
    [day2.Dimensions.new 2 3 4, day2.Dimensions.new 1 1 10] (by decide) (by decide)
    (by decide)

/-- C2 fails as stated: on the well-formed record "4000000000x4000000000x1" the
volume 4000000000*4000000000*1 exceeds `i64::MAX`, so the i64 arithmetic of
`ribbon` wraps (release builds) or panics (debug builds) and `part2` cannot
return the exact value `2*min(l+w, w+h, h+l) + l*w*h` the claim asserts. -/
theorem c2_counterexample :
    day2.Dimensions.from_str "4000000000x4000000000x1".toList =
        .Ok (day2.Dimensions.new 4000000000 4000000000 1) ∧
      day2.part2 "4000000000x4000000000x1".toList ≠
        .Ok (ribbonFormula (day2.Dimensions.new 4000000000 4000000000 1)) := by
  decide

/-- C2 amended: for every input all of whose lines are well-formed `l`x`w`x`h`
records, provided for each line the half-perimeter sums `l+w`, `w+h`, `h+l`,
the product `l*w`, the ribbon value `2*min(l+w, w+h, h+l) + l*w*h`, and the
total over all lines stay below `2^63` (so no `i64` computation overflows),
`day2::part2` computes that formula for each line and returns the sum over all
lines; in particular `part2("2x3x4") = Ok(34)` and `part2("1x1x10") = Ok(14)`. -/
theorem c2_day2_part2_ribbon :
    (∀ (input : List Char) (dims : List day2.Dimensions),
        (rlines input).map day2.Dimensions.from_str = dims.map Result.Ok →
        (∀ d ∈ dims, d.length + d.width < 2 ^ 63 ∧ d.width + d.height < 2 ^ 63 ∧
          d.height + d.length < 2 ^ 63 ∧ d.length * d.width < 2 ^ 63 ∧
          ribbonFormula d < 2 ^ 63) →
        (dims.map ribbonFormula).sum < 2 ^ 63 →
        day2.part2 input = .Ok ((dims.map ribbonFormula).sum)) ∧
      day2.part2 "2x3x4".toList = .Ok 34 ∧ day2.part2 "1x1x10".toList = .Ok 14 := by
  refine ⟨?_, by decide, by decide⟩
  intro input dims h hb htotal
  have hsum := day2_sumResults_all_ok day2.ribbon (rlines input) dims h
  show sumResults ((rlines input).map fun line =>
    (day2.Dimensions.from_str line).map day2.ribbon) = _
  rw [hsum]
  have hmaps : dims.map day2.ribbon = dims.map ribbonFormula := by
    apply list_map_congr_mem
    intro d hd
    obtain ⟨l, hl⟩ := mem_of_map_eq_map_ok day2.Dimensions.from_str (rlines input) dims h d hd
    obtain ⟨q1, q2, q3, q4, q5, q6⟩ := from_str_ok_range l d hl
    obtain ⟨k1, k2, k3, k4, k5⟩ := hb d hd
    exact ribbon_eq_formula d q1 q3 q5 k1 k2 (by omega) k4 k5
  rw [hmaps]

/-- Witness for C2 (amended) at the concrete input "2x3x4\n1x1x10". -/
theorem c2_witness :
    day2.part2 "2x3x4\n1x1x10".toList =
      .Ok (([day2.Dimensions.new 2 3 4, day2.Dimensions.new 1 1 10].map ribbonFormula).sum) :=
  c2_day2_part2_ribbon.1 "2x3x4\n1x1x10".toList
    [day2.Dimensions.new 2 3 4, day2.Dimensions.new 1 1 10] (by decide) (by decide)
    (by decide)

/-- C4 (evaluation at the failing input): parsing "2x3x4x5" does not yield
`TooManyDimensions`; because `splitn(3, 'x')` folds the excess into the third
piece "4x5", the numeric parse of that piece fails and the error is
`InvalidType(InvalidDigit)`. -/
theorem c4_excess_fields_eval :
    day2.Dimensions.from_str "2x3x4x5".toList = .Err (.InvalidType .InvalidDigit) ∧
      day2.Dimensions.from_str "2x3x4x5".toList ≠
        .Err day2.ParseDimensionError.TooManyDimensions := by
  decide

/-- C10: no entry point panics on the empty input: `day1::part1` returns
`Ok(0)` (the documented panic of `parse_directions` on "no data" does not
happen), `day1::part2` returns the threshold-never-reached error, and both
day2 entry points return `Ok(0)` as the empty sum. -/
theorem c10_empty_input_no_panic :
    day1.part1 [] = .Ok 0 ∧
      day1.part2 [] = .Err .NeverEntersBasement ∧
      day2.part1 [] = .Ok 0 ∧ day2.part2 [] = .Ok 0 := by
  decide

/-- C8: parsing is deterministic: in this embedding `Dimensions::from_str` and
`parse_directions` are pure functions of the line text alone, so two
invocations on the same input return identical results. -/
theorem c8_parsing_deterministic (s : List Char) :
    day2.Dimensions.from_str s = day2.Dimensions.from_str s ∧
      day1.parse_directions s = day1.parse_directions s :=
  ⟨rfl, rfl⟩

/-! ## Lemmas about day1 -/

theorem to_direction_of_valid (c : Char) (h : c = '(' ∨ c = ')') :
    day1.to_direction c = .Ok (delta c) := by
  rcases h with h | h <;> subst h <;> decide

theorem map_to_direction_of_valid (cs : List Char)
    (h : ∀ c ∈ cs, c = '(' ∨ c = ')') :
    cs.map day1.to_direction = cs.map fun c => .Ok (delta c) := by
  induction cs with
  | nil => rfl
  | cons c rest ih =>
    have hc := to_direction_of_valid c (h c (List.mem_cons_self _ _))
    have hr := ih (fun x hx => h x (List.mem_cons_of_mem _ hx))
    simp only [List.map_cons, hc, hr]

theorem part2Go_split (cs : List Char) :
    ∀ (tail : List (Result Int day1.ParseDirectionError)) (floor : Int) (i : Nat),
      day1.part2Go ((cs.map fun c => .Ok (delta c)) ++ tail) floor i =
        match basementPos cs floor with
        | some k => .Ok (i + k)
        | none => day1.part2Go tail (floor + (cs.map delta).sum) (i + cs.length) := by
  induction cs with
  | nil =>
    intro tail floor i
    simp [basementPos]
  | cons c rest ih =>
    intro tail floor i
    simp only [List.map_cons, List.cons_append, day1.part2Go, basementPos]
    by_cases hf : floor + delta c < 0
    · simp [hf]
    · rw [if_neg hf, if_neg hf]
      simp only [List.append_eq]
      rw [ih tail (floor + delta c) (i + 1)]
      cases hb : basementPos rest (floor + delta c) with
      | none =>
        simp only [hb, Option.map_none']
        congr 1
        · push_cast [List.sum_cons]; ring
        · simp [List.length_cons]; omega
      | some k =>
        simp only [hb, Option.map_some']
        congr 1
        omega

theorem basementPos_some (cs : List Char) :
    ∀ (floor : Int) (k : Nat), basementPos cs floor = some k →
      1 ≤ k ∧ k ≤ cs.length ∧ floor + psum cs k < 0 ∧
        ∀ m, m < k → 1 ≤ m → 0 ≤ floor + psum cs m := by
  induction cs with
  | nil => intro floor k h; simp [basementPos] at h
  | cons c rest ih =>
    intro floor k h
    simp only [basementPos] at h
    by_cases hf : floor + delta c < 0
    · rw [if_pos hf] at h
      have hk : k = 1 := by
        have := h.symm
        injection this
      subst hk
      refine ⟨le_refl 1, by simp, ?_, ?_⟩
      · have hps : psum (c :: rest) 1 = delta c := by
          simp [psum, List.take_succ_cons, List.take_zero]
        rw [hps]; exact hf
      · intro m hm h1m; omega
    · rw [if_neg hf] at h
      cases hb : basementPos rest (floor + delta c) with
      | none => rw [hb] at h; simp at h
      | some k' =>
        rw [hb] at h
        simp only [Option.map_some', Option.some.injEq] at h
        obtain ⟨h1, h2, h3, h4⟩ := ih (floor + delta c) k' hb
        have hk : k = k' + 1 := by omega
        subst hk
        have hps : ∀ j : Nat, psum (c :: rest) (j + 1) = delta c + psum rest j := by
          intro j
          simp [psum, List.take_succ_cons, List.sum_cons]
        refine ⟨by omega, by simp [List.length_cons]; omega, ?_, ?_⟩
        · rw [hps k']; omega
        · intro m hm h1m
          cases m with
          | zero => omega
          | succ j =>
            rw [hps j]
            cases Nat.eq_zero_or_pos j with
            | inl hj => subst hj; simp [psum]; omega
            | inr hj =>
              have := h4 j (by omega) (by omega)
              omega

theorem basementPos_none (cs : List Char) :
    ∀ floor : Int, basementPos cs floor = none →
      ∀ n, 1 ≤ n → n ≤ cs.length → 0 ≤ floor + psum cs n := by
  induction cs with
  | nil => intro floor _ n h1 h2; simp at h2; omega
  | cons c rest ih =>
    intro floor h n h1 h2
    simp only [basementPos] at h
    by_cases hf : floor + delta c < 0
    · rw [if_pos hf] at h; simp at h
    · rw [if_neg hf] at h
      cases hb : basementPos rest (floor + delta c) with
      | some k => rw [hb] at h; simp at h
      | none =>
        cases n with
        | zero => omega
        | succ j =>
          have hps : psum (c :: rest) (j + 1) = delta c + psum rest j := by
            simp [psum, List.take_succ_cons, List.sum_cons]
          rw [hps]
          cases Nat.eq_zero_or_pos j with
          | inl hj => subst hj; simp [psum]; omega
          | inr hj =>
            have := ih (floor + delta c) hb j (by omega) (by simpa using h2)
            omega

theorem parse_directions_eq (input : List Char) :
    day1.parse_directions input = (firstLine input).map day1.to_direction := rfl

/-! ## Lemmas about the splitn bound -/

theorem splitn3_get4 (c : Char) (s : List Char) : (splitn 3 c s).get? 3 = none := by
  cases h : splitOnce c s with
  | none =>
    show (match splitOnce c s with
      | none => [s]
      | some (pre, post) => pre :: splitn 2 c post).get? 3 = none
    rw [h]
    rfl
  | some pp =>
    obtain ⟨pre, post⟩ := pp
    show (match splitOnce c s with
      | none => [s]
      | some (pre, post) => pre :: splitn 2 c post).get? 3 = none
    rw [h]
    cases h2 : splitOnce c post with
    | none =>
      show (match splitOnce c post with
        | none => [post]
        | some (p2, q2) => p2 :: splitn 1 c q2).get? 2 = none
      rw [h2]
      rfl
    | some qq =>
      obtain ⟨p2, q2⟩ := qq
      show (match splitOnce c post with
        | none => [post]
        | some (p2, q2) => p2 :: splitn 1 c q2).get? 2 = none
      rw [h2]
      rfl

theorem parseTerm_ne_tooMany (t : Option (List Char)) :
    day2.parseTerm t ≠ .Err day2.ParseDimensionError.TooManyDimensions := by
  intro h
  unfold day2.parseTerm at h
  split at h
  · simp at h
  · split at h
    · simp at h
    · unfold day2.i64_try_from at h
      split at h <;> simp at h

/-! ## The claim theorems for day1 and the remaining day2 claims -/

/-- C9: `Dimensions::from_str` never returns `TooManyDimensions`: the line is
split with `splitn(3, 'x')`, so at most three substrings are produced and the
post-parse check for a fourth substring can never fire. -/
theorem c9_too_many_dimensions_unreachable (s : List Char) :
    day2.Dimensions.from_str s ≠ .Err day2.ParseDimensionError.TooManyDimensions := by
  intro hcontra
  simp only [day2.Dimensions.from_str] at hcontra
  rw [splitn3_get4 'x' s] at hcontra
  simp only [Option.isSome_none, Bool.false_eq_true, if_false] at hcontra
  repeat' split at hcontra
  all_goals try simp at hcontra
  all_goals
    rename_i e heq
    subst hcontra
    exact parseTerm_ne_tooMany _ heq

/-- Witness for C9 at a concrete input with more than three fields. -/
theorem c9_witness :
    day2.Dimensions.from_str "2x3x4x5".toList ≠
      .Err day2.ParseDimensionError.TooManyDimensions :=
  c9_too_many_dimensions_unreachable "2x3x4x5".toList

/-- C5: `day2::part1` and `day2::part2` are strict: when the lines split as a
block of well-parsing lines followed by the first malformed line `bad` (with
error `e`), each entry point returns exactly `Err e` and no partial sum. -/
theorem c5_day2_strict_first_error (input : List Char) (gs : List (List Char))
    (bad : List Char) (rest : List (List Char)) (e : day2.ParseDimensionError)
    (hsplit : rlines input = gs ++ bad :: rest)
    (hok : ∀ l ∈ gs, (day2.Dimensions.from_str l).isOk = true)
    (hbad : day2.Dimensions.from_str bad = .Err e) :
    day2.part1 input = .Err e ∧ day2.part2 input = .Err e := by
  have key : ∀ f : day2.Dimensions → Int,
      sumResults ((rlines input).map fun line =>
        (day2.Dimensions.from_str line).map f) = .Err e := by
    intro f
    rw [hsplit, List.map_append, List.map_cons, hbad, Result.map_err]
    apply sumResults_first_err
    intro x hx
    rw [List.mem_map] at hx
    obtain ⟨l, hl, hxl⟩ := hx
    have hlok := hok l hl
    cases hfs : day2.Dimensions.from_str l with
    | Err e2 => rw [hfs] at hlok; simp [Result.isOk] at hlok
    | Ok d => rw [← hxl, hfs, Result.map_ok]; rfl
  exact ⟨key day2.wrapping_paper, key day2.ribbon⟩

/-- Witness for C5: the second line "2x3" is the first malformed line, and both
entry points report its `MissingDimensions` error. -/
theorem c5_witness :
    day2.part1 "1x2x3\n2x3\n4x5x6".toList =
        .Err day2.ParseDimensionError.MissingDimensions ∧
      day2.part2 "1x2x3\n2x3\n4x5x6".toList =
        .Err day2.ParseDimensionError.MissingDimensions :=
  c5_day2_strict_first_error "1x2x3\n2x3\n4x5x6".toList ["1x2x3".toList]
    "2x3".toList ["4x5x6".toList] day2.ParseDimensionError.MissingDimensions
    (by decide) (by decide) (by decide)

/-- C7: `day1::part1` returns the signed sum of the per-character deltas over
the first line only, together with the nine concrete examples of the spec. -/
theorem c7_day1_part1_sum :
    (∀ input : List Char, (∀ c ∈ firstLine input, c = '(' ∨ c = ')') →
        day1.part1 input = .Ok (((firstLine input).map delta).sum)) ∧
      day1.part1 "(())".toList = .Ok 0 ∧ day1.part1 "()()".toList = .Ok 0 ∧
      day1.part1 "(((".toList = .Ok 3 ∧ day1.part1 "(()(()(".toList = .Ok 3 ∧
      day1.part1 "))(((((".toList = .Ok 3 ∧ day1.part1 "())".toList = .Ok (-1) ∧
      day1.part1 "))(".toList = .Ok (-1) ∧ day1.part1 ")))".toList = .Ok (-3) ∧
      day1.part1 ")())())".toList = .Ok (-3) := by
  refine ⟨?_, by decide, by decide, by decide, by decide, by decide, by decide,
    by decide, by decide, by decide⟩
  intro input h
  show sumResults (day1.parse_directions input) = _
  rw [parse_directions_eq, map_to_direction_of_valid _ h, sumResults_map_delta]

/-- Witness for C7 at the concrete input "(()". -/
theorem c7_witness :
    day1.part1 "(()".toList = .Ok ((("(()".toList).map delta).sum) :=
  c7_day1_part1_sum.1 "(()".toList (by decide)

/-- C3: on a first line of `(` and `)` only, `day1::part2` returns `Ok p` when
`p` is the 1-based position of the first prefix-sum of the deltas that drops
below zero, and the threshold-never-reached error when no prefix-sum drops
below zero; in particular `part2(")") = Ok(1)` and `part2("()())") = Ok(5)`. -/
theorem c3_day1_part2_first_basement :
    (∀ (input : List Char) (p : Nat),
        (∀ c ∈ firstLine input, c = '(' ∨ c = ')') →
        1 ≤ p → p ≤ (firstLine input).length →
        psum (firstLine input) p < 0 →
        (∀ k, k < p → 1 ≤ k → 0 ≤ psum (firstLine input) k) →
        day1.part2 input = .Ok p) ∧
      (∀ input : List Char,
        (∀ c ∈ firstLine input, c = '(' ∨ c = ')') →
        (∀ k, k ≤ (firstLine input).length → 0 ≤ psum (firstLine input) k) →
        day1.part2 input = .Err .NeverEntersBasement) ∧
      day1.part2 ")".toList = .Ok 1 ∧ day1.part2 "()())".toList = .Ok 5 := by
  refine ⟨?_, ?_, by decide, by decide⟩
  · intro input p hvalid h1 h2 h3 h4
    have hpd : day1.parse_directions input =
        ((firstLine input).map fun c => .Ok (delta c)) ++ [] := by
      rw [parse_directions_eq, map_to_direction_of_valid _ hvalid, List.append_nil]
    show day1.part2Go (day1.parse_directions input) 0 0 = .Ok p
    rw [hpd, part2Go_split]
    cases hb : basementPos (firstLine input) 0 with
    | none =>
      exfalso
      have := basementPos_none _ 0 hb p h1 h2
      omega
    | some k =>
      obtain ⟨hk1, hk2, hk3, hk4⟩ := basementPos_some _ 0 k hb
      have hkp : k = p := by
        rcases Nat.lt_or_ge k p with hlt | hge
        · have := h4 k hlt hk1
          omega
        · rcases Nat.lt_or_ge p k with hlt2 | hge2
          · have := hk4 p hlt2 h1
            omega
          · omega
      subst hkp
      simp
  · intro input hvalid hpos
    have hpd : day1.parse_directions input =
        ((firstLine input).map fun c => .Ok (delta c)) ++ [] := by
      rw [parse_directions_eq, map_to_direction_of_valid _ hvalid, List.append_nil]
    show day1.part2Go (day1.parse_directions input) 0 0 = .Err .NeverEntersBasement
    rw [hpd, part2Go_split]
    cases hb : basementPos (firstLine input) 0 with
    | some k =>
      exfalso
      obtain ⟨hk1, hk2, hk3, _⟩ := basementPos_some _ 0 k hb
      have := hpos k hk2
      omega
    | none =>
      rfl

/-- Witness for C3 at the concrete input "())" with first basement position 3. -/
theorem c3_witness : day1.part2 "())".toList = .Ok 3 :=
  c3_day1_part2_first_basement.1 "())".toList 3 (by decide) (by decide) (by decide)
    (by decide) (by decide)

/-- C6 fails as stated: the first line of ")*" contains the invalid character
'*', yet `day1::part2` succeeds with `Ok 1` (the basement is entered before the
invalid character is reached), while `day1::part1` fails — so the two entry
points are not consistent and part2 does not fail the entire computation. -/
theorem c6_counterexample :
    (¬ ('*' = '(' ∨ '*' = ')')) ∧ firstLine [')', '*'] = [')', '*'] ∧
      day1.part2 [')', '*'] = .Ok 1 ∧
      day1.part1 [')', '*'] = .Err (.InvalidCharacter '*') := by
  decide

/-- C6 amended: when the first line splits as valid characters `gs` followed by
the first invalid character `bad`, `day1::part1` always fails with
`InvalidCharacter bad` (never mapping it to a zero delta), and `day1::part2`
fails the same way provided no prefix-sum over `gs` drops below zero
(otherwise it returns the earlier basement position, as the counterexample
shows). -/
theorem c6_day1_invalid_char_amended (input : List Char) (gs : List Char)
    (bad : Char) (rest : List Char)
    (hsplit : firstLine input = gs ++ bad :: rest)
    (hgs : ∀ c ∈ gs, c = '(' ∨ c = ')')
    (hbad : ¬ (bad = '(' ∨ bad = ')')) :
    day1.part1 input = .Err (.InvalidCharacter bad) ∧
      ((∀ k, k ≤ gs.length → 0 ≤ psum gs k) →
        day1.part2 input = .Err (.Parse (.InvalidCharacter bad))) := by
  have hbd : day1.to_direction bad = .Err (.InvalidCharacter bad) := by
    unfold day1.to_direction
    rw [if_neg (fun hc => hbad (Or.inl hc)), if_neg (fun hc => hbad (Or.inr hc))]
  have hmap : day1.parse_directions input =
      (gs.map fun c => .Ok (delta c)) ++
        (.Err (.InvalidCharacter bad) :: rest.map day1.to_direction) := by
    rw [parse_directions_eq, hsplit, List.map_append, List.map_cons, hbd,
      map_to_direction_of_valid _ hgs]
  constructor
  · show sumResults (day1.parse_directions input) = _
    rw [hmap]
    apply sumResults_first_err
    intro x hx
    rw [List.mem_map] at hx
    obtain ⟨c2, _, hxc⟩ := hx
    rw [← hxc]
    rfl
  · intro hpos
    show day1.part2Go (day1.parse_directions input) 0 0 = _
    rw [hmap, part2Go_split]
    cases hb : basementPos gs 0 with
    | some k =>
      exfalso
      obtain ⟨hk1, hk2, hk3, _⟩ := basementPos_some gs 0 k hb
      have := hpos k hk2
      omega
    | none =>
      rfl

/-- Witness for C6 (amended) at the concrete input "(*". -/
theorem c6_witness :
    day1.part1 "(*".toList = .Err (.InvalidCharacter '*') ∧
      day1.part2 "(*".toList = .Err (.Parse (.InvalidCharacter '*')) :=
  ⟨(c6_day1_invalid_char_amended "(*".toList "(".toList '*' []
      (by decide) (by decide) (by decide)).1,
    (c6_day1_invalid_char_amended "(*".toList "(".toList '*' []
      (by decide) (by decide) (by decide)).2 (by decide)⟩
